import Mathlib

/-!
Shallow embedding of the cryo-cooler-controller repository's protocol client
(cryo_cooler_controller_lib/src/lib.rs) and telemetry windowing engine
(cryo_cooler_controller/src/charts.rs), with theorems settling the spec claims.

Modelling conventions:
- machine integers (u8/u16/u32/u64/usize) are `Nat` with explicit masking or
  `% 2 ^ w` where wrapping matters; i64 values are `Int`;
- byte arrays are `List Nat` whose elements are below 256 in theorems' domains;
- `f32` values in the charting code are modelled as exact rationals `ℚ`; the
  `f32` constants appearing in the code (0.05) are exactly the rational written
  in the source text;
- timestamps (`chrono::DateTime<Utc>`) are modelled at millisecond resolution
  as `Int`, since the chart eviction code only ever inspects
  `timestamp_millis()`;
- the blocking serial exchange inside `Tec::send_cmd` (one frame written, then
  exactly 8 bytes read) is modelled by an `ExchangeOutcome`: the write fails,
  the read fails, or an 8-byte reply buffer arrives.
-/

namespace CryoCooler

/-- CRC-16/XMODEM single shift step: shift left by one and xor the polynomial
0x1021 when the top bit (0x8000) was set, truncated to 16 bits. -/
def crcShiftBit (c : Nat) : Nat :=
  if c &&& 0x8000 ≠ 0 then ((c <<< 1) ^^^ 0x1021) &&& 0xFFFF
  else (c <<< 1) &&& 0xFFFF

/-- Iterate `crcShiftBit` the given number of times (8 per input byte). -/
def crcShiftBits : Nat → Nat → Nat
  | 0, c => c
  | n + 1, c => crcShiftBits n (crcShiftBit c)

/-- Feed one input byte into the CRC state: xor the byte into the high byte of
the 16-bit state, then run 8 shift steps. -/
def crcUpdateByte (c b : Nat) : Nat :=
  crcShiftBits 8 (c ^^^ ((b &&& 0xFF) <<< 8))

/-- CRC-16/XMODEM (poly 0x1021, init 0, no reflection, no xor-out) over a byte
list, as computed by `CRC_16_XMODEM.checksum` in lib.rs. -/
def crc16xmodem (bytes : List Nat) : Nat :=
  bytes.foldl crcUpdateByte 0

/-- Wire frame struct `Request` from lib.rs: fixed marker, op code, 4 data
bytes, 16-bit checksum. -/
structure Request where
  fixed : Nat
  op_code : Nat
  data : List Nat
  crc : Nat
deriving DecidableEq, Inhabited

/-- Embedding of `Request::new` (lib.rs lines 274-283): checksum the 6-byte
buffer `[0xAA, op_code, data[0..4]]` and store the fields. -/
def Request.new (op_code : Nat) (data : List Nat) : Request :=
  let buffer := [0xAA, op_code, data.getD 0 0, data.getD 1 0, data.getD 2 0, data.getD 3 0]
  let crc := crc16xmodem buffer
  { fixed := 0xAA
    op_code := op_code
    data := [data.getD 0 0, data.getD 1 0, data.getD 2 0, data.getD 3 0]
    crc := crc }

/-- Embedding of `Request::as_bytes` (lib.rs lines 285-296): the 8-byte frame,
checksum stored little-endian; the `as u8` casts truncate to 8 bits. -/
def Request.as_bytes (r : Request) : List Nat :=
  [r.fixed, r.op_code, r.data.getD 0 0, r.data.getD 1 0, r.data.getD 2 0, r.data.getD 3 0,
   r.crc &&& 0xFF, (r.crc >>> 8) &&& 0xFF]

/-- Wire frame struct `Response` from lib.rs. -/
structure Response where
  fixed : Nat
  op_code : Nat
  data : List Nat
  crc : Nat
deriving DecidableEq, Inhabited

/-- Embedding of `Response::from_bytes` (lib.rs lines 308-323): split the 8
received bytes; the checksum is read as a little-endian u16. -/
def Response.from_bytes (bytes : List Nat) : Response :=
  { fixed := bytes.getD 0 0
    op_code := bytes.getD 1 0
    data := [bytes.getD 2 0, bytes.getD 3 0, bytes.getD 4 0, bytes.getD 5 0]
    crc := bytes.getD 6 0 + 256 * bytes.getD 7 0 }

/-- Outcome of one serial exchange seen by `Tec::send_cmd`: the frame write
fails, the 8-byte read fails or is short, or an 8-byte buffer is read. -/
inductive ExchangeOutcome where
  | writeFail
  | readFail
  | reply (buffer : List Nat)

/-- The error kinds `Tec::send_cmd` can produce, following the spec's names:
transport failure, wrong response op code, wrong response checksum. -/
inductive TecError where
  | ioError
  | protocolMismatch
  | checksumError
deriving DecidableEq

/-- Embedding of `Tec::send_cmd` (lib.rs lines 28-49): after a successful
write and 8-byte read, first reject the reply if byte 1 differs from
`request.op_code + 127` (u8 arithmetic, hence mod 256), then recompute the
CRC over the first 6 bytes and reject on checksum disagreement. -/
def sendCmd (request : Request) (outcome : ExchangeOutcome) : Except TecError Response :=
  match outcome with
  | ExchangeOutcome.writeFail => Except.error TecError.ioError
  | ExchangeOutcome.readFail => Except.error TecError.ioError
  | ExchangeOutcome.reply buffer =>
    if buffer.getD 1 0 ≠ (request.op_code + 127) % 256 then
      Except.error TecError.protocolMismatch
    else
      let crc := crc16xmodem (buffer.take 6)
      let response := Response.from_bytes buffer
      if response.crc = crc then Except.ok response
      else Except.error TecError.checksumError

/- Command op-code constants from the `commands` module of lib.rs. -/
namespace commands

def HEART_BEAT : Nat := 0x00

namespace get

def TEC_TEMPERATURE : Nat := 0x01

def HUMIDITY : Nat := 0x02

def DEW_POINT : Nat := 0x03

def SET_POINT_OFFSET : Nat := 0x04

def P_COEFFICIENT : Nat := 0x05

def I_COEFFICIENT : Nat := 0x06

def D_COEFFICIENT : Nat := 0x07

def TEC_POWERLEVEL : Nat := 0x08

def HW_VERSION : Nat := 0x09

def FW_VERSION : Nat := 0x0A

def NTC_COEFFICIENT : Nat := 0x1B

def BOARD_TEMP : Nat := 0x1F

def VOLTAGE_AND_CURRENT : Nat := 0x22

def TEC_VOLTAGE : Nat := 0x23

def TEC_CURRENT : Nat := 0x24

end get

namespace set

def POINT_OFFSET : Nat := 0x14

def P_COEFFICIENT : Nat := 0x15

def I_COEFFICIENT : Nat := 0x16

def D_COEFFICIENT : Nat := 0x17

def DISABLE_NOT_ENABLE : Nat := 0x18

def CPU_TEMP : Nat := 0x19

def NTC_COEFFICIENT : Nat := 0x20

def TEMP_SENSOR : Nat := 0x1C

def TEC_POWER_LEVEL : Nat := 0x1D

def RESET_BOARD : Nat := 0x1E

end set

end commands

/-- Every op-code constant defined in the `commands` module; these are the
only op codes the protocol client ever puts into a request it constructs. -/
def clientOpCodes : List Nat :=
  [commands.HEART_BEAT,
   commands.get.TEC_TEMPERATURE, commands.get.HUMIDITY, commands.get.DEW_POINT,
   commands.get.SET_POINT_OFFSET, commands.get.P_COEFFICIENT, commands.get.I_COEFFICIENT,
   commands.get.D_COEFFICIENT, commands.get.TEC_POWERLEVEL, commands.get.HW_VERSION,
   commands.get.FW_VERSION, commands.get.NTC_COEFFICIENT, commands.get.BOARD_TEMP,
   commands.get.VOLTAGE_AND_CURRENT, commands.get.TEC_VOLTAGE, commands.get.TEC_CURRENT,
   commands.set.POINT_OFFSET, commands.set.P_COEFFICIENT, commands.set.I_COEFFICIENT,
   commands.set.D_COEFFICIENT, commands.set.DISABLE_NOT_ENABLE, commands.set.CPU_TEMP,
   commands.set.NTC_COEFFICIENT, commands.set.TEMP_SENSOR, commands.set.TEC_POWER_LEVEL,
   commands.set.RESET_BOARD]

/- Status bit constants of the `TecStatus` bitflags struct (lib.rs 240-262). -/
namespace TecStatus

def BOARD_INIT : Nat := 1 <<< 0

def POWER_OK : Nat := 1 <<< 1

def TEMP_SENSE_OK : Nat := 1 <<< 2

def HUM_SENSE_OK : Nat := 1 <<< 3

def LAST_CMD_OK : Nat := 1 <<< 4

def LAST_CMD_BAD_CRC : Nat := 1 <<< 5

def LAST_CMD_INCOMPLETE : Nat := 1 <<< 6

def FAILSAFE_ACTIVE : Nat := 1 <<< 7

def PID_READY : Nat := 1 <<< 8

def PID_INVALID : Nat := 1 <<< 9

def PID_OUT_OF_RANGE : Nat := 1 <<< 10

def PID_DEFAULT : Nat := 1 <<< 11

def PID_RUNNING : Nat := 1 <<< 12

def OCP_ACTIVE : Nat := 1 <<< 13

def BOARD_TEMP_OK : Nat := 1 <<< 14

def TEC_CONN_OK : Nat := 1 <<< 15

def LOW_POWER_MODE_ACTIVE : Nat := 1 <<< 16

def TEMP_MODE : Nat := 1 <<< 17

/-- Union of all defined flag bits, as generated by the `bitflags!` macro. -/
def ALL : Nat :=
  BOARD_INIT ||| POWER_OK ||| TEMP_SENSE_OK ||| HUM_SENSE_OK ||| LAST_CMD_OK |||
  LAST_CMD_BAD_CRC ||| LAST_CMD_INCOMPLETE ||| FAILSAFE_ACTIVE ||| PID_READY |||
  PID_INVALID ||| PID_OUT_OF_RANGE ||| PID_DEFAULT ||| PID_RUNNING ||| OCP_ACTIVE |||
  BOARD_TEMP_OK ||| TEC_CONN_OK ||| LOW_POWER_MODE_ACTIVE ||| TEMP_MODE

/-- The `bitflags`-generated `TecStatus::from_bits`: succeeds exactly when no
bit outside the defined flags is set, returning the bit pattern itself. -/
def fromBits (bits : Nat) : Option Nat :=
  if bits &&& ALL = bits then some bits else none

end TecStatus

/-- Status-decoding step of `Tec::heart_beat` (lib.rs lines 100-109): given
the little-endian u32 read from the response payload, mask it down to the low
18 bits and run `TecStatus::from_bits` on the result. -/
def heart_beat_status (status_code : Nat) : Option Nat :=
  TecStatus.fromBits (status_code &&& 0b111111111111111111)

/-- Run a list of requests in order against an oracle giving the outcome of
each successive serial exchange, mirroring how the `?` operator threads
`Tec::send_cmd` results through the multi-command operations of lib.rs.
Returns the requests actually sent (a send is attempted for a request exactly
when every earlier request's exchange succeeded) and either the collected
responses or the first error, which aborts the remaining sends. -/
def runSeq (oracle : Nat → ExchangeOutcome) :
    List Request → Nat → List Request × Except TecError (List Response)
  | [], _ => ([], Except.ok [])
  | r :: rs, k =>
    match sendCmd r (oracle k) with
    | Except.error e => ([r], Except.error e)
    | Except.ok resp =>
      match runSeq oracle rs (k + 1) with
      | (sent, Except.ok resps) => (r :: sent, Except.ok (resp :: resps))
      | (sent, Except.error e) => (r :: sent, Except.error e)

/-- The six requests issued, in order, by `Tec::enable` (lib.rs lines
211-229) via `set_power_level`, `set_setpoint_offset`, `set_pid` (P, I, D)
and the final disable=false command. The f32 arguments p, i, d, setpoint
appear here as their 4-byte little-endian encodings. -/
def enableRequests (p i d : List Nat) (power_level : Nat) (setpoint : List Nat) : List Request :=
  [Request.new commands.set.TEC_POWER_LEVEL [power_level, 0, 0, 0],
   Request.new commands.set.POINT_OFFSET setpoint,
   Request.new commands.set.P_COEFFICIENT p,
   Request.new commands.set.I_COEFFICIENT i,
   Request.new commands.set.D_COEFFICIENT d,
   Request.new commands.set.DISABLE_NOT_ENABLE [0, 0, 0, 0]]

/-- Embedding of `Tec::enable`: run the six requests in order, short-circuit
on the first failure, and discard the response values. -/
def enable (oracle : Nat → ExchangeOutcome) (p i d : List Nat) (power_level : Nat)
    (setpoint : List Nat) : List Request × Except TecError Unit :=
  let res := runSeq oracle (enableRequests p i d power_level setpoint) 0
  (res.1, res.2.map fun _ => ())

/-- The seven scalar-read requests issued, in order, by `Tec::monitor`
(lib.rs lines 111-122): TEC temperature, board temperature, humidity, dew
point, TEC voltage, TEC current, TEC power level, each with a zero payload. -/
def monitorRequests : List Request :=
  [Request.new commands.get.TEC_TEMPERATURE [0, 0, 0, 0],
   Request.new commands.get.BOARD_TEMP [0, 0, 0, 0],
   Request.new commands.get.HUMIDITY [0, 0, 0, 0],
   Request.new commands.get.DEW_POINT [0, 0, 0, 0],
   Request.new commands.get.TEC_VOLTAGE [0, 0, 0, 0],
   Request.new commands.get.TEC_CURRENT [0, 0, 0, 0],
   Request.new commands.get.TEC_POWERLEVEL [0, 0, 0, 0]]

/-- Snapshot struct `MonitoringData` from lib.rs. The timestamp is the
capture-start instant (`Utc::now()` evaluated before the first read) in
milliseconds; the scalar fields keep the raw 4-byte little-endian response
payloads (their f32/u32 views and the fixed calibration divisors play no role
in the claims about sequencing), and the power level is response byte 0. -/
structure MonitoringData where
  timestamp : Int
  tec_temperature : List Nat
  pcb_temperature : List Nat
  humidity : List Nat
  dew_point_temperature : List Nat
  tec_voltage : List Nat
  tec_current : List Nat
  tec_power_level : Nat
deriving DecidableEq, Inhabited

/-- Assemble a `MonitoringData` from the seven responses of `Tec::monitor`,
in field order. The non-7-response branch is unreachable when the responses
come from a successful `runSeq` over `monitorRequests`. -/
def buildMonitoringData (now : Int) (rs : List Response) : Except TecError MonitoringData :=
  match rs with
  | [r1, r2, r3, r4, r5, r6, r7] =>
    Except.ok
      { timestamp := now
        tec_temperature := r1.data
        pcb_temperature := r2.data
        humidity := r3.data
        dew_point_temperature := r4.data
        tec_voltage := r5.data
        tec_current := r6.data
        tec_power_level := r7.data.getD 0 0 }
  | _ => Except.error TecError.ioError

/-- Embedding of `Tec::monitor`: stamp the capture-start time, run the seven
reads in order, short-circuit on the first failure; also expose the requests
actually sent. -/
def monitor (oracle : Nat → ExchangeOutcome) (now : Int) :
    List Request × Except TecError MonitoringData :=
  let res := runSeq oracle monitorRequests 0
  (res.1, res.2.bind (buildMonitoringData now))

/-- A well-formed 8-byte reply to a request: marker, the expected op code
`request.op_code + 127` (mod 256), zero payload, and a matching checksum.
Used to build concrete oracles under which every exchange succeeds. -/
def okReply (r : Request) : List Nat :=
  let body := [0xAA, (r.op_code + 127) % 256, 0, 0, 0, 0]
  body ++ [crc16xmodem body &&& 0xFF, (crc16xmodem body >>> 8) &&& 0xFF]

/-- One `(timestamp, value)` sample of a telemetry window; the timestamp is
in milliseconds (the chart code only ever inspects `timestamp_millis()`) and
the f32 value is modelled as an exact rational. -/
structure Sample where
  t : Int
  v : ℚ
deriving DecidableEq, Inhabited

/-- The telemetry window state of `MonitoringChartf32` (charts.rs lines
135-143): display bounds, newest-first sample list, time horizon in
milliseconds, and the render cache modelled as a validity flag (`Cache` is
fresh/valid until `cache.clear()` marks it dirty). The `title` and `unit`
strings play no role in any claim and are omitted. -/
structure MonitoringChartf32 where
  min : ℚ
  max : ℚ
  data_points : List Sample
  limitMs : Nat
  cacheValid : Bool
deriving DecidableEq

/-- Embedding of `MonitoringChartf32::new` (charts.rs lines 146-163): seed
the bounds, store the samples, set the 300-second horizon. -/
def MonitoringChartf32.new (data : List Sample) (min max : ℚ) : MonitoringChartf32 :=
  { min := min
    max := max
    data_points := data
    limitMs := 300000
    cacheValid := true }

/-- The eviction test of `push_data`: the back sample is dropped when
`Duration::from_millis((cur_ms - time.timestamp_millis()) as u64)` exceeds
the horizon; the `as u64` cast reduces the i64 difference mod 2^64. -/
def tooOld (curMs : Int) (limitMs : Nat) (s : Sample) : Bool :=
  decide (((curMs - s.t) % (2 ^ 64 : Int)).toNat > limitMs)

/-- The `push_data` eviction loop (charts.rs lines 175-184): pop from the
back while the back sample is too old; equivalently, drop the maximal run of
too-old samples at the back of the (front-first) list. -/
def evictBack (curMs : Int) (limitMs : Nat) (l : List Sample) : List Sample :=
  (l.reverse.dropWhile (tooOld curMs limitMs)).reverse

/-- Embedding of `MonitoringChartf32::push_data` (charts.rs lines 165-186):
expand the display bounds on out-of-range values (0.05 of the distance to the
opposite bound as headroom, both updates reading the pre-update `min`), push
the new sample at the front, evict too-old samples from the back measuring
against the just-inserted sample's timestamp, and dirty the render cache. -/
def MonitoringChartf32.push_data (c : MonitoringChartf32) (time : Int) (value : ℚ) :
    MonitoringChartf32 :=
  let curMs := time
  let newMax := if value > c.max then (value - c.min) * (5 / 100) + value else c.max
  let newMin := if value < c.min then value - (c.min - value) * (5 / 100) else c.min
  { min := newMin
    max := newMax
    data_points := evictBack curMs c.limitMs (Sample.mk time value :: c.data_points)
    limitMs := c.limitMs
    cacheValid := false }

/-- Rounding of `f32::round`: round half away from zero. -/
def roundQ (q : ℚ) : Int :=
  if 0 ≤ q then ⌊q + 1 / 2⌋ else ⌈q - 1 / 2⌉

/-- Embedding of `calc_hover_index` (charts.rs lines 339-358). The
`round() as usize` cast saturates negative values to zero (`Int.toNat`);
`saturating_sub` is `Nat` subtraction. -/
def calc_hover_index (x_pos_option : Option ℚ) (data_size : Nat)
    (bounds_width bounds_x : ℚ) : Option Nat :=
  if data_size = 0 then none
  else
    match x_pos_option with
    | some x_pos =>
      let translation_factor := (data_size : ℚ) / bounds_width
      let hover_index := data_size - (roundQ ((x_pos - bounds_x) * translation_factor)).toNat
      if hover_index ≥ data_size then some (data_size - 1) else some hover_index
    | none => none

set_option maxRecDepth 16000

/-- The CRC state stays within 16 bits after every shift step. -/
theorem crcShiftBit_le (c : Nat) : crcShiftBit c ≤ 0xFFFF := by
  unfold crcShiftBit
  split <;> exact Nat.and_le_right

/-- Iterated shift steps keep a 16-bit state within 16 bits. -/
theorem crcShiftBits_le (n c : Nat) (h : c ≤ 0xFFFF) : crcShiftBits n c ≤ 0xFFFF := by
  induction n generalizing c with
  | zero => exact h
  | succ n ih => exact ih _ (crcShiftBit_le c)

/-- Absorbing one byte keeps a 16-bit state within 16 bits. -/
theorem crcUpdateByte_le (c b : Nat) (h : c ≤ 0xFFFF) : crcUpdateByte c b ≤ 0xFFFF := by
  refine crcShiftBits_le 8 _ ?_
  have hb : (b &&& 0xFF) <<< 8 < 2 ^ 16 := by
    have : b &&& 0xFF ≤ 0xFF := Nat.and_le_right
    rw [Nat.shiftLeft_eq]
    omega
  have hc : c < 2 ^ 16 := by omega
  have := Nat.xor_lt_two_pow hc hb
  omega

/-- The CRC-16/XMODEM checksum is a 16-bit value. -/
theorem crc16xmodem_le (bytes : List Nat) : crc16xmodem bytes ≤ 0xFFFF := by
  have h : ∀ l : List Nat, ∀ c : Nat, c ≤ 0xFFFF → l.foldl crcUpdateByte c ≤ 0xFFFF := by
    intro l
    induction l with
    | nil => intro c hc; exact hc
    | cons b l ih => intro c hc; exact ih _ (crcUpdateByte_le c b hc)
  exact h bytes 0 (by omega)

/-- A 16-bit value split into its low byte and its high byte, little-endian,
reassembles to itself. -/
theorem u16_le_bytes_roundtrip (x : Nat) (h : x ≤ 0xFFFF) :
    (x &&& 0xFF) + 256 * ((x >>> 8) &&& 0xFF) = x := by
  have h1 : x &&& 0xFF = x % 256 := by
    have := Nat.and_pow_two_sub_one_eq_mod x 8
    norm_num at this
    exact this
  have h2 : x >>> 8 = x / 256 := by
    have := Nat.shiftRight_eq_div_pow x 8
    norm_num at this
    exact this
  have h3 : (x >>> 8) &&& 0xFF = x >>> 8 := by
    have hlt : x >>> 8 < 2 ^ 8 := by rw [h2]; omega
    have := Nat.and_pow_two_sub_one_of_lt_two_pow hlt
    norm_num at this
    exact this
  rw [h1, h3, h2]
  omega

/-- C1: for every request with op code X sent via `Tec::send_cmd`, if the
8-byte reply's op-code byte differs from X + 127 (mod 256), the operation
fails with the protocol-mismatch error, regardless of the reply's checksum:
the op-code check decides before any checksum check. -/
theorem c1_opcode_mismatch_protocol (request : Request) (buffer : List Nat)
    (hmismatch : buffer.getD 1 0 ≠ (request.op_code + 127) % 256) :
    sendCmd request (ExchangeOutcome.reply buffer) = Except.error TecError.protocolMismatch := by
  simp only [sendCmd]
  rw [if_pos hmismatch]

/-- Witness for C1: a heartbeat request answered with op-code byte 0 (and, in
particular, a checksum that would also be wrong) is rejected as a protocol
mismatch. -/
theorem c1_witness :
    ([0xAA, 0, 0, 0, 0, 0, 0, 0] : List Nat).getD 1 0
        ≠ ((Request.new 0 [0, 0, 0, 0]).op_code + 127) % 256 ∧
    sendCmd (Request.new 0 [0, 0, 0, 0]) (ExchangeOutcome.reply [0xAA, 0, 0, 0, 0, 0, 0, 0])
      = Except.error TecError.protocolMismatch :=
  ⟨by decide, c1_opcode_mismatch_protocol _ _ (by decide)⟩

/-- C2: for every op-code byte and every 4-byte payload, encoding the request
into its 8-byte frame and decoding that frame back yields the same op code
and payload, and the CRC-16/XMODEM recomputed over the frame's first 6 bytes
equals the little-endian u16 checksum stored in the last 2 bytes (which is
also the checksum the decoded response carries). -/
theorem c2_encode_decode_roundtrip (op_code : Nat) (data : List Nat)
    (hop : op_code < 256) (hlen : data.length = 4) (hbytes : ∀ b ∈ data, b < 256) :
    (Response.from_bytes (Request.new op_code data).as_bytes).op_code = op_code ∧
    (Response.from_bytes (Request.new op_code data).as_bytes).data = data ∧
    crc16xmodem ((Request.new op_code data).as_bytes.take 6)
      = (Request.new op_code data).as_bytes.getD 6 0
        + 256 * (Request.new op_code data).as_bytes.getD 7 0 ∧
    (Response.from_bytes (Request.new op_code data).as_bytes).crc
      = crc16xmodem ((Request.new op_code data).as_bytes.take 6) := by
  obtain ⟨a, b, c, d, rfl⟩ : ∃ a b c d, data = [a, b, c, d] := by
    match data, hlen with
    | [a, b, c, d], _ => exact ⟨a, b, c, d, rfl⟩
  refine ⟨rfl, rfl, ?_, ?_⟩
  · show crc16xmodem [0xAA, op_code, a, b, c, d]
      = (crc16xmodem [0xAA, op_code, a, b, c, d] &&& 0xFF)
        + 256 * ((crc16xmodem [0xAA, op_code, a, b, c, d] >>> 8) &&& 0xFF)
    exact (u16_le_bytes_roundtrip _ (crc16xmodem_le _)).symm
  · show (crc16xmodem [0xAA, op_code, a, b, c, d] &&& 0xFF)
        + 256 * ((crc16xmodem [0xAA, op_code, a, b, c, d] >>> 8) &&& 0xFF)
      = crc16xmodem [0xAA, op_code, a, b, c, d]
    exact u16_le_bytes_roundtrip _ (crc16xmodem_le _)

/-- Witness for C2: the round-trip at op code 0x05 and payload [1, 2, 3, 4]. -/
theorem c2_witness :
    (0x05 : Nat) < 256 ∧ ([1, 2, 3, 4] : List Nat).length = 4 ∧
      (∀ b ∈ ([1, 2, 3, 4] : List Nat), b < 256) ∧
    (Response.from_bytes (Request.new 0x05 [1, 2, 3, 4]).as_bytes).op_code = 0x05 ∧
    (Response.from_bytes (Request.new 0x05 [1, 2, 3, 4]).as_bytes).data = [1, 2, 3, 4] :=
  ⟨by decide, by decide, by decide,
    (c2_encode_decode_roundtrip 0x05 [1, 2, 3, 4] (by decide) (by decide) (by decide)).1,
    (c2_encode_decode_roundtrip 0x05 [1, 2, 3, 4] (by decide) (by decide) (by decide)).2.1⟩

/-- C6: decoding the device status field masks the received u32 down to its
low 18 bits and always succeeds (high bits are truncated, never rejected);
raw value 0b1 decodes to exactly the board-init flag and raw value 0b11 to
exactly the board-init and power-ok flags. -/
theorem c6_status_masking :
    (∀ status_code : Nat, heart_beat_status status_code = some (status_code % 2 ^ 18)) ∧
    heart_beat_status 0b1 = some TecStatus.BOARD_INIT ∧
    heart_beat_status 0b11 = some (TecStatus.BOARD_INIT ||| TecStatus.POWER_OK) := by
  refine ⟨fun status_code => ?_, by decide, by decide⟩
  have h262 : (0b111111111111111111 : Nat) = 2 ^ 18 - 1 := by norm_num
  have hmask : status_code &&& 0b111111111111111111 = status_code % 2 ^ 18 := by
    rw [h262]
    exact Nat.and_pow_two_sub_one_eq_mod status_code 18
  have hlt : status_code % 2 ^ 18 < 2 ^ 18 := Nat.mod_lt _ (by norm_num)
  have hALL : TecStatus.ALL = 2 ^ 18 - 1 := by decide
  unfold heart_beat_status TecStatus.fromBits
  rw [hmask, hALL, Nat.and_pow_two_sub_one_of_lt_two_pow hlt, if_pos rfl]

/-- C9: every op code the protocol client itself constructs a request with
(all constants of the commands module) is at most 0x24, so the unchecked u8
addition `request.op_code + 127` in the response-validation path stays at
most 255 and never overflows (the mod-256 wrap is the identity on it). -/
theorem c9_opcode_plus_127_no_overflow (c : Nat) (hc : c ∈ clientOpCodes) :
    c ≤ 0x24 ∧ c + 127 ≤ 255 ∧ (c + 127) % 256 = c + 127 := by
  have h : ∀ x ∈ clientOpCodes, x ≤ 0x24 ∧ x + 127 ≤ 255 ∧ (x + 127) % 256 = x + 127 := by
    decide
  exact h c hc

/-- Witness for C9: the largest client op code, 0x24 (get TEC current). -/
theorem c9_witness :
    commands.get.TEC_CURRENT ∈ clientOpCodes ∧
    (commands.get.TEC_CURRENT ≤ 0x24 ∧ commands.get.TEC_CURRENT + 127 ≤ 255 ∧
      (commands.get.TEC_CURRENT + 127) % 256 = commands.get.TEC_CURRENT + 127) :=
  ⟨by decide, c9_opcode_plus_127_no_overflow _ (by decide)⟩

/-- Appending an element the predicate rejects is transparent to
`dropWhile`. -/
theorem dropWhile_append_singleton {α : Type} (p : α → Bool) (l : List α) (x : α)
    (hx : p x = false) : (l ++ [x]).dropWhile p = l.dropWhile p ++ [x] := by
  induction l with
  | nil => simp [List.dropWhile_cons, hx]
  | cons a l ih => by_cases ha : p a <;> simp [List.dropWhile_cons, ha, ih]

/-- When the elements the predicate accepts form a prefix (any accepted
element only has accepted elements before it), `dropWhile` agrees with
`filter` by the negated predicate. -/
theorem dropWhile_eq_filter_of_pairwise {α : Type} (p : α → Bool) :
    ∀ l : List α, l.Pairwise (fun a b => p b = true → p a = true) →
      l.dropWhile p = l.filter (fun x => !p x) := by
  intro l
  induction l with
  | nil => intro _; rfl
  | cons a l ih =>
    intro hp
    rcases List.pairwise_cons.mp hp with ⟨ha, hl⟩
    by_cases hpa : p a
    · rw [List.dropWhile_cons, if_pos hpa, List.filter_cons,
        if_neg (by simp [hpa]), ih hl]
    · rw [List.dropWhile_cons, if_neg hpa, List.filter_cons, if_pos (by simp [hpa])]
      have : ∀ b ∈ l, (!p b) = true := by
        intro b hb
        by_cases hpb : p b
        · exact absurd (ha b hb hpb) hpa
        · simp [hpb]
      rw [List.filter_eq_self.mpr this]

/-- The just-inserted sample is never too old relative to itself. -/
theorem tooOld_self (time : Int) (limitMs : Nat) (v : ℚ) :
    tooOld time limitMs (Sample.mk time v) = false := by
  simp [tooOld]

/-- The eviction loop keeps a fresh front sample and only works behind it. -/
theorem evictBack_cons_of_fresh (curMs : Int) (limitMs : Nat) (x : Sample) (l : List Sample)
    (hx : tooOld curMs limitMs x = false) :
    evictBack curMs limitMs (x :: l) = x :: evictBack curMs limitMs l := by
  unfold evictBack
  rw [List.reverse_cons, dropWhile_append_singleton _ _ _ hx, List.reverse_append]
  rfl

/-- When being too old is monotone from front to back, the eviction loop
removes exactly the too-old samples. -/
theorem evictBack_eq_filter (curMs : Int) (limitMs : Nat) (l : List Sample)
    (hp : l.Pairwise (fun a b =>
      tooOld curMs limitMs a = true → tooOld curMs limitMs b = true)) :
    evictBack curMs limitMs l = l.filter (fun s => !tooOld curMs limitMs s) := by
  unfold evictBack
  rw [dropWhile_eq_filter_of_pairwise _ _ (List.pairwise_reverse.mpr hp),
    List.filter_reverse, List.reverse_reverse]

/-- C10: after every append the telemetry window is non-empty and its front
element is exactly the just-appended sample; the eviction loop can never
remove the sample being inserted, for every prior window content and every
timestamp, including timestamps earlier than already-stored samples. -/
theorem c10_front_is_new_sample (c : MonitoringChartf32) (time : Int) (value : ℚ) :
    ∃ rest, (c.push_data time value).data_points = Sample.mk time value :: rest :=
  ⟨evictBack time c.limitMs c.data_points,
    evictBack_cons_of_fresh _ _ _ _ (tooOld_self time c.limitMs value)⟩

/-- C4: the append operation expands the display bounds exactly as the spec
formulas state, leaves in-range values' bounds unchanged, and (given
well-ordered bounds) never shrinks the bounds; concretely, from bounds
[0, 20] appending 25 yields max 26.25, and a later append of 10 changes
nothing. -/
theorem c4_autoscale_bounds (c : MonitoringChartf32) (time : Int) (value : ℚ)
    (hbounds : c.min ≤ c.max) :
    (value > c.max → (c.push_data time value).max = value + (value - c.min) * (5 / 100)) ∧
    (value < c.min → (c.push_data time value).min = value - (c.min - value) * (5 / 100)) ∧
    (c.min ≤ value → value ≤ c.max →
      (c.push_data time value).min = c.min ∧ (c.push_data time value).max = c.max) ∧
    (c.push_data time value).min ≤ c.min ∧
    c.max ≤ (c.push_data time value).max ∧
    (c.push_data time value).min ≤ (c.push_data time value).max ∧
    ((MonitoringChartf32.new [] 0 20).push_data 0 25).max = 26.25 ∧
    ((MonitoringChartf32.new [] 0 20).push_data 0 25).min = 0 ∧
    (((MonitoringChartf32.new [] 0 20).push_data 0 25).push_data 0 10).max = 26.25 ∧
    (((MonitoringChartf32.new [] 0 20).push_data 0 25).push_data 0 10).min = 0 := by
  refine ⟨?_, ?_, ?_, ?_, ?_, ?_,
    by norm_num [MonitoringChartf32.push_data, MonitoringChartf32.new],
    by norm_num [MonitoringChartf32.push_data, MonitoringChartf32.new],
    by norm_num [MonitoringChartf32.push_data, MonitoringChartf32.new],
    by norm_num [MonitoringChartf32.push_data, MonitoringChartf32.new]⟩
  · intro h
    show (if value > c.max then (value - c.min) * (5 / 100) + value else c.max)
      = value + (value - c.min) * (5 / 100)
    rw [if_pos h]
    ring
  · intro h
    show (if value < c.min then value - (c.min - value) * (5 / 100) else c.min)
      = value - (c.min - value) * (5 / 100)
    rw [if_pos h]
  · intro h1 h2
    constructor
    · show (if value < c.min then value - (c.min - value) * (5 / 100) else c.min) = c.min
      rw [if_neg (not_lt.mpr h1)]
    · show (if value > c.max then (value - c.min) * (5 / 100) + value else c.max) = c.max
      rw [if_neg (not_lt.mpr h2)]
  · show (if value < c.min then value - (c.min - value) * (5 / 100) else c.min) ≤ c.min
    split_ifs with h <;> linarith
  · show c.max ≤ (if value > c.max then (value - c.min) * (5 / 100) + value else c.max)
    split_ifs with h <;> linarith
  · show (if value < c.min then value - (c.min - value) * (5 / 100) else c.min)
      ≤ (if value > c.max then (value - c.min) * (5 / 100) + value else c.max)
    split_ifs with h1 h2 <;> linarith

/-- Witness for C4: the spec's own scenario, bounds [0, 20] and value 25. -/
theorem c4_witness :
    ((MonitoringChartf32.new [] 0 20).min ≤ (MonitoringChartf32.new [] 0 20).max) ∧
    ((25 : ℚ) > (MonitoringChartf32.new [] 0 20).max →
      ((MonitoringChartf32.new [] 0 20).push_data 0 25).max
        = 25 + (25 - (MonitoringChartf32.new [] 0 20).min) * (5 / 100)) :=
  ⟨by norm_num [MonitoringChartf32.new],
    (c4_autoscale_bounds (MonitoringChartf32.new [] 0 20) 0 25 (by norm_num [MonitoringChartf32.new])).1⟩

/-- C3: for in-order windows (timestamps nonincreasing toward the back, none
newer than the incoming sample, differences within the u64 cast range), the
append operation evicts from the back exactly the samples strictly more than
300 seconds older than the just-inserted sample's timestamp, measured against
that newest sample; appending samples at 0 s, 100 s, 200 s and 400 s in order
leaves the window holding 400 s, 200 s and 100 s, with 0 s evicted and the
boundary sample 100 s retained (300 s difference is not strictly greater). -/
theorem c3_time_horizon_eviction (c : MonitoringChartf32) (time : Int) (value : ℚ)
    (hlimit : c.limitMs = 300000)
    (hsorted : c.data_points.Pairwise (fun a b => b.t ≤ a.t))
    (hrange : ∀ s ∈ c.data_points, s.t ≤ time ∧ time - s.t < 2 ^ 64) :
    (c.push_data time value).data_points
      = Sample.mk time value
          :: c.data_points.filter (fun s => decide (time - s.t ≤ 300000)) ∧
    (((((MonitoringChartf32.new [] 0 20).push_data 0 0).push_data 100000 0).push_data
        200000 0).push_data 400000 0).data_points
      = [Sample.mk 400000 0, Sample.mk 200000 0, Sample.mk 100000 0] := by
  constructor
  · have hpair : c.data_points.Pairwise (fun a b =>
        tooOld time 300000 a = true → tooOld time 300000 b = true) := by
      refine hsorted.imp_of_mem ?_
      intro a b ha hb hab hta
      rcases hrange a ha with ⟨ha1, ha2⟩
      rcases hrange b hb with ⟨hb1, hb2⟩
      simp only [tooOld] at hta ⊢
      rw [Int.emod_eq_of_lt (by omega) ha2] at hta
      rw [Int.emod_eq_of_lt (by omega) hb2]
      simp only [decide_eq_true_eq] at hta ⊢
      omega
    show evictBack time c.limitMs (Sample.mk time value :: c.data_points) = _
    rw [hlimit, evictBack_cons_of_fresh _ _ _ _ (tooOld_self time 300000 value),
      evictBack_eq_filter _ _ _ hpair]
    congr 1
    refine List.filter_congr ?_
    intro s hs
    rcases hrange s hs with ⟨h1, h2⟩
    simp only [tooOld]
    rw [Int.emod_eq_of_lt (by omega) h2, ← decide_not, decide_eq_decide]
    omega
  · decide

/-- Witness for C3: a window holding samples at 350 s and 0 s receives a
sample at 400 s; the 0 s sample is evicted, the 350 s sample retained. -/
theorem c3_witness :
    (MonitoringChartf32.new [Sample.mk 350000 0, Sample.mk 0 0] 0 20).limitMs = 300000 ∧
    ((MonitoringChartf32.new [Sample.mk 350000 0, Sample.mk 0 0] 0 20).push_data
        400000 1).data_points
      = Sample.mk 400000 1
          :: (MonitoringChartf32.new [Sample.mk 350000 0, Sample.mk 0 0] 0
              20).data_points.filter (fun s => decide ((400000 : Int) - s.t ≤ 300000)) :=
  ⟨rfl, (c3_time_horizon_eviction _ 400000 1 rfl (by decide) (by decide)).1⟩

/-- C5: the hover resolver returns nothing when the window is empty or the
cursor is absent; otherwise it returns the sample count minus the rounded
scaled cursor offset, clamped into [0, count - 1] saturating on underflow;
for 10 samples on a viewport at x 0 of width 100, cursor x 0 resolves to
index 9 and cursor x 100 to index 0. -/
theorem c5_hover_resolution (cursor_x bounds_width bounds_x : ℚ) (data_size : Nat)
    (hsize : data_size ≠ 0) :
    calc_hover_index none data_size bounds_width bounds_x = none ∧
    calc_hover_index (some cursor_x) 0 bounds_width bounds_x = none ∧
    calc_hover_index (some cursor_x) data_size bounds_width bounds_x
      = some (min
          (((data_size : Int)
              - roundQ ((cursor_x - bounds_x) * (data_size : ℚ) / bounds_width)).toNat)
          (data_size - 1)) ∧
    calc_hover_index (some 0) 10 100 0 = some 9 ∧
    calc_hover_index (some 100) 10 100 0 = some 0 := by
  refine ⟨?_, rfl, ?_, by norm_num [calc_hover_index, roundQ],
    by norm_num [calc_hover_index, roundQ]⟩
  · unfold calc_hover_index
    split <;> rfl
  · unfold calc_hover_index
    rw [if_neg hsize]
    show (if data_size
            - (roundQ ((cursor_x - bounds_x) * ((data_size : ℚ) / bounds_width))).toNat
          ≥ data_size
        then some (data_size - 1)
        else some (data_size
          - (roundQ ((cursor_x - bounds_x) * ((data_size : ℚ) / bounds_width))).toNat)) = _
    rw [show (cursor_x - bounds_x) * ((data_size : ℚ) / bounds_width)
        = (cursor_x - bounds_x) * (data_size : ℚ) / bounds_width from
      (mul_div_assoc _ _ _).symm]
    generalize roundQ ((cursor_x - bounds_x) * (data_size : ℚ) / bounds_width) = r
    split_ifs <;> simp only [Option.some.injEq] <;> omega

/-- Witness for C5: the spec's scenario with 10 samples on a width-100
viewport at x 0. -/
theorem c5_witness :
    (10 : Nat) ≠ 0 ∧ calc_hover_index (some 0) 10 100 0 = some 9 :=
  ⟨by decide, (c5_hover_resolution 0 100 0 10 (by decide)).2.2.2.1⟩

/-- On a successful run every request in the sequence was sent. -/
theorem runSeq_ok_sent (oracle : Nat → ExchangeOutcome) :
    ∀ (reqs : List Request) (k : Nat) (resps : List Response),
      (runSeq oracle reqs k).2 = Except.ok resps → (runSeq oracle reqs k).1 = reqs := by
  intro reqs
  induction reqs with
  | nil => intro k resps _; rfl
  | cons r rs ih =>
    intro k resps h
    simp only [runSeq] at h ⊢
    cases hsc : sendCmd r (oracle k) with
    | error e =>
      simp only [hsc] at h
      exact Except.noConfusion h
    | ok resp =>
      simp only [hsc] at h ⊢
      rcases hrun : runSeq oracle rs (k + 1) with ⟨sent, res⟩
      simp only [hrun] at h ⊢
      cases res with
      | error e => simp at h
      | ok resps2 =>
        have hs : sent = rs := by
          have h2 := ih (k + 1) resps2 (by rw [hrun])
          rw [hrun] at h2
          exact h2
        simp [hs]

/-- On a successful run there is one response per request. -/
theorem runSeq_ok_length (oracle : Nat → ExchangeOutcome) :
    ∀ (reqs : List Request) (k : Nat) (resps : List Response),
      (runSeq oracle reqs k).2 = Except.ok resps → resps.length = reqs.length := by
  intro reqs
  induction reqs with
  | nil =>
    intro k resps h
    simp only [runSeq, Except.ok.injEq] at h
    simp [← h]
  | cons r rs ih =>
    intro k resps h
    simp only [runSeq] at h
    cases hsc : sendCmd r (oracle k) with
    | error e =>
      simp only [hsc] at h
      exact Except.noConfusion h
    | ok resp =>
      simp only [hsc] at h
      rcases hrun : runSeq oracle rs (k + 1) with ⟨sent, res⟩
      simp only [hrun] at h
      cases res with
      | error e => simp at h
      | ok resps2 =>
        simp only [Except.ok.injEq] at h
        have h2 := ih (k + 1) resps2 (by rw [hrun])
        simp [← h, h2]

/-- On a failed run there is a first failing exchange: every earlier exchange
succeeded, the failing request was the last one sent (so no later request is
sent), and its error is the run's error. -/
theorem runSeq_error_spec (oracle : Nat → ExchangeOutcome) :
    ∀ (reqs : List Request) (k : Nat) (e : TecError),
      (runSeq oracle reqs k).2 = Except.error e →
      ∃ j, j < reqs.length ∧
        (runSeq oracle reqs k).1 = reqs.take (j + 1) ∧
        sendCmd (reqs.getD j default) (oracle (k + j)) = Except.error e ∧
        ∀ m, m < j → ∃ resp,
          sendCmd (reqs.getD m default) (oracle (k + m)) = Except.ok resp := by
  intro reqs
  induction reqs with
  | nil => intro k e h; simp [runSeq] at h
  | cons r rs ih =>
    intro k e h
    simp only [runSeq] at h ⊢
    cases hsc : sendCmd r (oracle k) with
    | error e2 =>
      simp only [hsc, Except.error.injEq] at h ⊢
      refine ⟨0, by simp, by simp, ?_, by omega⟩
      simpa [h] using hsc
    | ok resp =>
      simp only [hsc] at h ⊢
      rcases hrun : runSeq oracle rs (k + 1) with ⟨sent, res⟩
      simp only [hrun] at h ⊢
      cases res with
      | ok resps2 => simp at h
      | error e2 =>
        simp only [Except.error.injEq] at h
        obtain ⟨j, hj, hsent, herr, hprev⟩ := ih (k + 1) e (by rw [hrun]; simp [h])
        rw [hrun] at hsent
        have hsent2 : sent = List.take (j + 1) rs := hsent
        refine ⟨j + 1, by simpa using Nat.succ_lt_succ hj, ?_, ?_, ?_⟩
        · simp [hsent2]
        · have harith : k + (j + 1) = (k + 1) + j := by omega
          rw [List.getD_cons_succ, harith]
          exact herr
        · intro m hm
          cases m with
          | zero => exact ⟨resp, by simpa using hsc⟩
          | succ m2 =>
            obtain ⟨resp2, hresp2⟩ := hprev m2 (by omega)
            refine ⟨resp2, ?_⟩
            have harith : k + (m2 + 1) = (k + 1) + m2 := by omega
            rw [List.getD_cons_succ, harith]
            exact hresp2

/-- C7: for every input, `Tec::enable` issues exactly six command frames in
order (set power level 0x1D, set setpoint offset 0x14, set P 0x15, set I
0x16, set D 0x17, then disable-not-enable 0x18 with payload byte 0 equal to
0, meaning enable); the first failing send aborts the sequence so no later
frame is emitted, while the already-issued writes stay issued (nothing is
rolled back). -/
theorem c7_enable_sequence (oracle : Nat → ExchangeOutcome) (p i d setpoint : List Nat)
    (power_level : Nat) (hp : p.length = 4) (hi : i.length = 4) (hd : d.length = 4)
    (hs : setpoint.length = 4) :
    (enableRequests p i d power_level setpoint).map (fun r => (r.op_code, r.data))
      = [(0x1D, [power_level, 0, 0, 0]), (0x14, setpoint), (0x15, p), (0x16, i), (0x17, d),
         (0x18, [0, 0, 0, 0])] ∧
    (∀ u : Unit, (enable oracle p i d power_level setpoint).2 = Except.ok u →
      (enable oracle p i d power_level setpoint).1
        = enableRequests p i d power_level setpoint) ∧
    (∀ e : TecError, (enable oracle p i d power_level setpoint).2 = Except.error e →
      ∃ j, j < 6 ∧
        (enable oracle p i d power_level setpoint).1
          = (enableRequests p i d power_level setpoint).take (j + 1) ∧
        sendCmd ((enableRequests p i d power_level setpoint).getD j default) (oracle j)
          = Except.error e ∧
        ∀ m, m < j → ∃ resp,
          sendCmd ((enableRequests p i d power_level setpoint).getD m default) (oracle m)
            = Except.ok resp) := by
  obtain ⟨p0, p1, p2, p3, rfl⟩ : ∃ a b c2 d2, p = [a, b, c2, d2] := by
    match p, hp with
    | [a, b, c2, d2], _ => exact ⟨a, b, c2, d2, rfl⟩
  obtain ⟨i0, i1, i2, i3, rfl⟩ : ∃ a b c2 d2, i = [a, b, c2, d2] := by
    match i, hi with
    | [a, b, c2, d2], _ => exact ⟨a, b, c2, d2, rfl⟩
  obtain ⟨d0, d1, d2, d3, rfl⟩ : ∃ a b c2 d2, d = [a, b, c2, d2] := by
    match d, hd with
    | [a, b, c2, d2], _ => exact ⟨a, b, c2, d2, rfl⟩
  obtain ⟨s0, s1, s2, s3, rfl⟩ : ∃ a b c2 d2, setpoint = [a, b, c2, d2] := by
    match setpoint, hs with
    | [a, b, c2, d2], _ => exact ⟨a, b, c2, d2, rfl⟩
  refine ⟨rfl, ?_, ?_⟩
  · intro u h
    cases hr : (runSeq oracle (enableRequests [p0, p1, p2, p3] [i0, i1, i2, i3]
        [d0, d1, d2, d3] power_level [s0, s1, s2, s3]) 0).2 with
    | error e =>
      exfalso
      have h2 : ((runSeq oracle (enableRequests [p0, p1, p2, p3] [i0, i1, i2, i3]
          [d0, d1, d2, d3] power_level [s0, s1, s2, s3]) 0).2.map
            (fun _ => ())) = Except.ok u := h
      rw [hr] at h2
      simp [Except.map] at h2
    | ok resps => exact runSeq_ok_sent oracle _ 0 resps hr
  · intro e h
    have h2 : ((runSeq oracle (enableRequests [p0, p1, p2, p3] [i0, i1, i2, i3]
        [d0, d1, d2, d3] power_level [s0, s1, s2, s3]) 0).2.map
          (fun _ => ())) = Except.error e := h
    cases hr : (runSeq oracle (enableRequests [p0, p1, p2, p3] [i0, i1, i2, i3]
        [d0, d1, d2, d3] power_level [s0, s1, s2, s3]) 0).2 with
    | ok resps =>
      exfalso
      rw [hr] at h2
      simp [Except.map] at h2
    | error e2 =>
      rw [hr] at h2
      simp only [Except.map, Except.error.injEq] at h2
      obtain ⟨j, hj, hsent, herr, hprev⟩ := runSeq_error_spec oracle _ 0 e (by rw [hr, h2])
      refine ⟨j, by simpa using hj, hsent, by simpa using herr, ?_⟩
      intro m hm
      obtain ⟨resp, hresp⟩ := hprev m hm
      exact ⟨resp, by simpa using hresp⟩

/-- Concrete oracle under which every exchange of a fixed `enable` call
succeeds: each request is answered by its well-formed reply. -/
def enableOkOracle : Nat → ExchangeOutcome := fun k =>
  ExchangeOutcome.reply (okReply ((enableRequests [1, 2, 3, 4] [5, 6, 7, 8] [9, 10, 11, 12] 50
    [13, 14, 15, 16]).getD k default))

/-- Witness for C7: a fully successful `enable` run issues all six frames. -/
theorem c7_witness :
    ((enable enableOkOracle [1, 2, 3, 4] [5, 6, 7, 8] [9, 10, 11, 12] 50 [13, 14, 15, 16]).2
        = Except.ok ()) ∧
    (enable enableOkOracle [1, 2, 3, 4] [5, 6, 7, 8] [9, 10, 11, 12] 50 [13, 14, 15, 16]).1
      = enableRequests [1, 2, 3, 4] [5, 6, 7, 8] [9, 10, 11, 12] 50 [13, 14, 15, 16] :=
  ⟨by rfl,
    (c7_enable_sequence enableOkOracle [1, 2, 3, 4] [5, 6, 7, 8] [9, 10, 11, 12]
      [13, 14, 15, 16] 50 (by decide) (by decide) (by decide) (by decide)).2.1 () (by rfl)⟩

/-- C8: `Tec::monitor` issues the seven scalar reads (TEC temperature, board
temperature, humidity, dew point, TEC voltage, TEC current, TEC power level)
in that order and stamps the snapshot with the capture-start time; any read
failure makes the whole operation return that first error, short-circuiting
the remaining reads, and no partial snapshot is returned. -/
theorem c8_monitor_sequence (oracle : Nat → ExchangeOutcome) (now : Int) :
    monitorRequests.map (fun r => (r.op_code, r.data))
      = [(0x01, [0, 0, 0, 0]), (0x1F, [0, 0, 0, 0]), (0x02, [0, 0, 0, 0]),
         (0x03, [0, 0, 0, 0]), (0x23, [0, 0, 0, 0]), (0x24, [0, 0, 0, 0]),
         (0x08, [0, 0, 0, 0])] ∧
    (∀ md : MonitoringData, (monitor oracle now).2 = Except.ok md →
      md.timestamp = now ∧ (monitor oracle now).1 = monitorRequests) ∧
    (∀ e : TecError, (monitor oracle now).2 = Except.error e →
      ∃ j, j < 7 ∧
        (monitor oracle now).1 = monitorRequests.take (j + 1) ∧
        sendCmd (monitorRequests.getD j default) (oracle j) = Except.error e ∧
        ∀ m, m < j → ∃ resp,
          sendCmd (monitorRequests.getD m default) (oracle m) = Except.ok resp) := by
  refine ⟨rfl, ?_, ?_⟩
  · intro md h
    have h2 : ((runSeq oracle monitorRequests 0).2.bind (buildMonitoringData now))
        = Except.ok md := h
    cases hr : (runSeq oracle monitorRequests 0).2 with
    | error e =>
      exfalso
      rw [hr] at h2
      simp [Except.bind] at h2
    | ok resps =>
      rw [hr] at h2
      simp only [Except.bind] at h2
      have hlen : resps.length = 7 := by
        simpa using runSeq_ok_length oracle monitorRequests 0 resps hr
      obtain ⟨r1, r2, r3, r4, r5, r6, r7, rfl⟩ :
          ∃ a b c2 d2 e2 f g, resps = [a, b, c2, d2, e2, f, g] := by
        match resps, hlen with
        | [a, b, c2, d2, e2, f, g], _ => exact ⟨a, b, c2, d2, e2, f, g, rfl⟩
      simp only [buildMonitoringData, Except.ok.injEq] at h2
      refine ⟨?_, runSeq_ok_sent oracle _ 0 _ hr⟩
      rw [← h2]
  · intro e h
    have h2 : ((runSeq oracle monitorRequests 0).2.bind (buildMonitoringData now))
        = Except.error e := h
    cases hr : (runSeq oracle monitorRequests 0).2 with
    | ok resps =>
      exfalso
      rw [hr] at h2
      simp only [Except.bind] at h2
      have hlen : resps.length = 7 := by
        simpa using runSeq_ok_length oracle monitorRequests 0 resps hr
      obtain ⟨r1, r2, r3, r4, r5, r6, r7, rfl⟩ :
          ∃ a b c2 d2 e2 f g, resps = [a, b, c2, d2, e2, f, g] := by
        match resps, hlen with
        | [a, b, c2, d2, e2, f, g], _ => exact ⟨a, b, c2, d2, e2, f, g, rfl⟩
      simp [buildMonitoringData] at h2
    | error e2 =>
      rw [hr] at h2
      simp only [Except.bind, Except.error.injEq] at h2
      obtain ⟨j, hj, hsent, herr, hprev⟩ := runSeq_error_spec oracle _ 0 e (by rw [hr, h2])
      refine ⟨j, by simpa using hj, hsent, by simpa using herr, ?_⟩
      intro m hm
      obtain ⟨resp, hresp⟩ := hprev m hm
      exact ⟨resp, by simpa using hresp⟩

/-- Concrete oracle under which every exchange of `monitor` succeeds: each of
the seven reads is answered by its well-formed reply. -/
def monitorOkOracle : Nat → ExchangeOutcome := fun k =>
  ExchangeOutcome.reply (okReply (monitorRequests.getD k default))

/-- Witness for C8: a fully successful `monitor` run issues all seven reads
and stamps the snapshot with the capture-start time. -/
theorem c8_witness :
    ((monitor monitorOkOracle 0).2 = Except.ok
      { timestamp := 0
        tec_temperature := [0, 0, 0, 0]
        pcb_temperature := [0, 0, 0, 0]
        humidity := [0, 0, 0, 0]
        dew_point_temperature := [0, 0, 0, 0]
        tec_voltage := [0, 0, 0, 0]
        tec_current := [0, 0, 0, 0]
        tec_power_level := 0 }) ∧
    (({ timestamp := 0
        tec_temperature := [0, 0, 0, 0]
        pcb_temperature := [0, 0, 0, 0]
        humidity := [0, 0, 0, 0]
        dew_point_temperature := [0, 0, 0, 0]
        tec_voltage := [0, 0, 0, 0]
        tec_current := [0, 0, 0, 0]
        tec_power_level := 0 } : MonitoringData).timestamp = 0 ∧
      (monitor monitorOkOracle 0).1 = monitorRequests) :=
  ⟨by rfl, (c8_monitor_sequence monitorOkOracle 0).2.1 _ (by rfl)⟩

end CryoCooler
